import Mathlib

/-!
Shallow embedding, in Lean 4, of the core of the `do-it-tomorrow` job
scheduler (TypeScript), for checking its natural-language specification.

Covered source modules:
* `domain/src/domain/ScheduledAt/DateFunctions.ts` — the `evaluate`
  function for `ScheduledAt` expressions such as `"now | add -1h"`.
* `FirestoreProcessor` — the claim / execute / complete loop over the
  `queued` / `running` / `complete` Firestore collections, the
  `markJobAsRunning` claim transaction, error classification via
  `isFirebaseError`, and the processor lifecycle (`run` / `close`).

JavaScript strings are modelled as `List Char`, JavaScript `Date` values
as `Option Int` (epoch milliseconds; `none` is the JS `Invalid Date`,
which absorbs arithmetic the way `NaN` does).  The embedding fixes the
environment timezone to UTC and omits the JS `Date` range clamp, neither
of which any checked claim depends on.  Firestore transactions are
modelled as all-or-nothing functions on an explicit store state, which is
exactly the atomicity Firestore guarantees for `runTransaction`.
-/

/-- Decidable equality for `Except`, so that concrete runs of the
embedded functions can be checked by `decide`. -/
instance {ε α : Type} [DecidableEq ε] [DecidableEq α] : DecidableEq (Except ε α) := fun x y =>
  match x, y with
  | .error a, .error b => decidable_of_iff (a = b) (by simp)
  | .ok a, .ok b => decidable_of_iff (a = b) (by simp)
  | .error _, .ok _ => isFalse Except.noConfusion
  | .ok _, .error _ => isFalse Except.noConfusion

namespace DateFunctions

/-- JS whitespace test used by `trim` and the `\s` regex class
(restricted to the whitespace characters that can occur here). -/
def isWs (c : Char) : Bool :=
  c == ' ' || c == '\t' || c == '\n' || c == '\r'

/-- Decimal digit test, the `\d` regex class. -/
def isDigitCh (c : Char) : Bool :=
  '0' ≤ c && c ≤ '9'

/-- JS `String.prototype.split` with a one-character separator:
splits at every occurrence, keeping empty pieces. -/
def splitOnChar (sep : Char) : List Char → List (List Char)
  | [] => [[]]
  | c :: cs =>
    if c == sep then [] :: splitOnChar sep cs
    else
      match splitOnChar sep cs with
      | [] => [[c]]
      | p :: ps => (c :: p) :: ps

/-- JS `String.prototype.trim`: strip whitespace from both ends. -/
def jsTrim (cs : List Char) : List Char :=
  ((cs.dropWhile isWs).reverse.dropWhile isWs).reverse

/-- Model of `operation.split(/\s+(.*)/s)`: the part before the first
whitespace run, and (when the string contains whitespace at all) the
remainder after that run. -/
def splitFirstWsRun (cs : List Char) : List Char × Option (List Char) :=
  let before := cs.takeWhile (fun c => !(isWs c))
  let rest := cs.dropWhile (fun c => !(isWs c))
  match rest with
  | [] => (before, none)
  | _ => (before, some (rest.dropWhile isWs))

/-- Value of a non-empty digit string. -/
def digitsToNat (cs : List Char) : Nat :=
  cs.foldl (fun n c => n * 10 + (c.toNat - '0'.toNat)) 0

/-- The unit tokens accepted by the regex
`^([+-]?\s*\d+)\s*((?:[smhd]|second|seconds|months|month|months|year|years))$`.
Because the alternation is anchored by `$`, a match forces the unit part
of the input to be exactly one of these words. -/
def unitWords : List (List Char) :=
  ["s", "m", "h", "d", "second", "seconds", "month", "months", "year", "years"].map
    String.toList

/-- Model of matching `amountAndUnit` against the regex above, combined
with `Number(match[1].replace(/\s/g, ""))`: an optional sign, optional
whitespace, at least one digit, optional whitespace, then one of the
unit words, with nothing left over.  Returns the signed amount and the
unit token. -/
def matchAmountAndUnit (cs : List Char) : Option (Int × List Char) :=
  let signAndRest : Int × List Char :=
    match cs with
    | '+' :: rest => (1, rest)
    | '-' :: rest => (-1, rest)
    | _ => (1, cs)
  let sign := signAndRest.1
  let cs1 := signAndRest.2.dropWhile isWs
  let ds := cs1.takeWhile isDigitCh
  let csAfterDigits := cs1.dropWhile isDigitCh
  if ds.isEmpty then none
  else
    let unit := csAfterDigits.dropWhile isWs
    if unitWords.contains unit then some (sign * (digitsToNat ds : Int), unit)
    else none

/-- A JS `Date`: epoch milliseconds, or `none` for `Invalid Date`. -/
abbrev JsDate : Type := Option Int

/-- `new Date(date.getTime() + k)`; `NaN` (invalid) propagates. -/
def jsAddMillis (d : JsDate) (k : Int) : JsDate :=
  Option.map (fun t => t + k) d

/-- Leap-year test of the proleptic Gregorian calendar. -/
def isLeapYear (y : Int) : Bool :=
  (y % 4 == 0 && y % 100 != 0) || y % 400 == 0

/-- Days in month `m` (1-based) of year `y`. -/
def daysInMonth (y m : Int) : Int :=
  if m == 2 then (if isLeapYear y then 29 else 28)
  else if m == 4 || m == 6 || m == 9 || m == 11 then 30
  else 31

/-- Days from 1970-01-01 to civil date `(y, m, d)` (`m` 1-based), the
standard era-based algorithm with truncating division. -/
def daysFromCivil (y m d : Int) : Int :=
  let y1 := if m ≤ 2 then y - 1 else y
  let era := Int.tdiv (if y1 ≥ 0 then y1 else y1 - 399) 400
  let yoe := y1 - era * 400
  let doy := Int.tdiv (153 * (m + (if m > 2 then -3 else 9)) + 2) 5 + d - 1
  let doe := yoe * 365 + Int.tdiv yoe 4 - Int.tdiv yoe 100 + doy
  era * 146097 + doe - 719468

/-- Civil date `(y, m, d)` (`m` 1-based) of day `z` counted from
1970-01-01; inverse of `daysFromCivil`. -/
def civilFromDays (z : Int) : Int × Int × Int :=
  let z1 := z + 719468
  let era := Int.tdiv (if z1 ≥ 0 then z1 else z1 - 146096) 146097
  let doe := z1 - era * 146097
  let yoe := Int.tdiv (doe - Int.tdiv doe 1460 + Int.tdiv doe 36524 - Int.tdiv doe 146096) 365
  let y := yoe + era * 400
  let doy := doe - (365 * yoe + Int.tdiv yoe 4 - Int.tdiv yoe 100)
  let mp := Int.tdiv (5 * doy + 2) 153
  let d := doy - Int.tdiv (153 * mp + 2) 5 + 1
  let m := mp + (if mp < 10 then 3 else -9)
  (if m ≤ 2 then y + 1 else y, m, d)

/-- Day index (from 1970-01-01) of an epoch-millisecond instant. -/
def dayOfMillis (t : Int) : Int :=
  Int.fdiv t 86400000

/-- Milliseconds into the day of an epoch-millisecond instant. -/
def msOfDay (t : Int) : Int :=
  t % 86400000

/-- `date.getFullYear()` (UTC model) on a valid date. -/
def getFullYear (t : Int) : Int :=
  (civilFromDays (dayOfMillis t)).1

/-- `date.getMonth()` (0-based, UTC model) on a valid date. -/
def getMonth (t : Int) : Int :=
  (civilFromDays (dayOfMillis t)).2.1 - 1

/-- `date.getDate()` (day of month, UTC model) on a valid date. -/
def getDate (t : Int) : Int :=
  (civilFromDays (dayOfMillis t)).2.2

/-- `date.getHours()` (UTC model) on a valid date. -/
def getHours (t : Int) : Int :=
  msOfDay t / 3600000

/-- `date.getMinutes()` (UTC model) on a valid date. -/
def getMinutes (t : Int) : Int :=
  (msOfDay t / 60000) % 60

/-- `date.getSeconds()` (UTC model) on a valid date. -/
def getSeconds (t : Int) : Int :=
  (msOfDay t / 1000) % 60

/-- `date.getMilliseconds()` on a valid date. -/
def getMillis (t : Int) : Int :=
  msOfDay t % 1000

/-- `new Date(y, month, d, h, mi, s, ms)` (UTC model): the month is
0-based and may lie outside `[0, 11]`, in which case it rolls the year
(floor semantics), and day / time fields roll likewise via plain
day-and-millisecond arithmetic. -/
def mkDateFromParts (y month d h mi s ms : Int) : Int :=
  let yAdj := y + Int.fdiv month 12
  let mAdj := month % 12 + 1
  (daysFromCivil yAdj mAdj 1 + (d - 1)) * 86400000
    + h * 3600000 + mi * 60000 + s * 1000 + ms

/-- Calendar arithmetic of the `case "month"` branch:
`new Date(getFullYear, getMonth + amount, getDate, ... )`. -/
def jsAddCalendarMonths (d : JsDate) (amount : Int) : JsDate :=
  Option.map
    (fun t =>
      mkDateFromParts (getFullYear t) (getMonth t + amount) (getDate t)
        (getHours t) (getMinutes t) (getSeconds t) (getMillis t))
    d

/-- Calendar arithmetic of the `case "year"` branch:
`new Date(getFullYear + amount, getMonth, getDate, ... )`. -/
def jsAddCalendarYears (d : JsDate) (amount : Int) : JsDate :=
  Option.map
    (fun t =>
      mkDateFromParts (getFullYear t + amount) (getMonth t) (getDate t)
        (getHours t) (getMinutes t) (getSeconds t) (getMillis t))
    d

/-- Read exactly `n` decimal digits; returns their value and the rest. -/
def takeDigits : Nat → List Char → Option (Nat × List Char)
  | 0, cs => some (0, cs)
  | _ + 1, [] => none
  | n + 1, c :: cs =>
    if isDigitCh c then
      match takeDigits n cs with
      | some (v, rest) => some ((c.toNat - '0'.toNat) * 10 ^ n + v, rest)
      | none => none
    else none

/-- Require the next character to be `c`. -/
def expectChar (c : Char) : List Char → Option (List Char)
  | x :: xs => if x == c then some xs else none
  | [] => none

/-- The timezone part `xxx` of the format: `±HH:mm`, returned in
minutes (no `Z` accepted by the lowercase token). -/
def parseOffset (cs : List Char) : Option (Int × List Char) := do
  let (sgn, cs) ←
    match cs with
    | '+' :: rest => some ((1 : Int), rest)
    | '-' :: rest => some ((-1 : Int), rest)
    | _ => none
  let (oh, cs) ← takeDigits 2 cs
  let cs ← expectChar ':' cs
  let (om, cs) ← takeDigits 2 cs
  if oh ≤ 23 && om ≤ 59 then some (sgn * ((oh : Int) * 60 + om), cs) else none

/-- The `yyyy-MM-dd'T'` part of the format: year, month, day. -/
def parseDatePart (cs : List Char) : Option ((Nat × Nat × Nat) × List Char) := do
  let (y, cs) ← takeDigits 4 cs
  let cs ← expectChar '-' cs
  let (mo, cs) ← takeDigits 2 cs
  let cs ← expectChar '-' cs
  let (d, cs) ← takeDigits 2 cs
  let cs ← expectChar 'T' cs
  some ((y, mo, d), cs)

/-- The `HH:mm:ss.SSS` part of the format. -/
def parseTimePart (cs : List Char) : Option ((Nat × Nat × Nat × Nat) × List Char) := do
  let (h, cs) ← takeDigits 2 cs
  let cs ← expectChar ':' cs
  let (mi, cs) ← takeDigits 2 cs
  let cs ← expectChar ':' cs
  let (s, cs) ← takeDigits 2 cs
  let cs ← expectChar '.' cs
  let (ms, cs) ← takeDigits 3 cs
  some ((h, mi, s, ms), cs)

/-- Model of date-fns `parse(dateString, "yyyy-MM-dd'T'HH:mm:ss.SSSxxx",
new Date())`: a full match of the format with calendar-valid fields
yields the instant; anything else yields the JS `Invalid Date` (`none`).
The reference date does not leak because the format fixes every field. -/
def parseTimestamp (cs : List Char) : JsDate := do
  let (ymd, cs) ← parseDatePart cs
  let (hmss, cs) ← parseTimePart cs
  let (offMinutes, cs) ← parseOffset cs
  let y := ymd.1
  let mo := ymd.2.1
  let d := ymd.2.2
  let h := hmss.1
  let mi := hmss.2.1
  let s := hmss.2.2.1
  let ms := hmss.2.2.2
  if cs.isEmpty && 1 ≤ mo && mo ≤ 12 && 1 ≤ d && (d : Int) ≤ daysInMonth y mo
      && h ≤ 23 && mi ≤ 59 && s ≤ 59 then
    some (daysFromCivil y mo d * 86400000 + (h : Int) * 3600000
      + (mi : Int) * 60000 + (s : Int) * 1000 + (ms : Int) - offMinutes * 60000)
  else none

/-- The embedding of `evaluate` from
`domain/src/domain/ScheduledAt/DateFunctions.ts`, over a string given as
characters.  `now` is the injected `clock.now()` instant; `Except.error`
models a thrown `Error` (message apostrophes omitted).  The JS switch
statement writes `case "month" || "months":` and `case "year" || "years":`,
which JavaScript evaluates to `case "month":` and `case "year":`, so the
plural tokens (and `second`/`seconds`), though accepted by the regex,
fall through to the `default` branch and throw `Unknown unit ...`. -/
def evaluateChars (s : List Char) (now : Int) : Except String JsDate :=
  let elements := splitOnChar '|' s
  let dateString := jsTrim (elements.headD [])
  let date : JsDate :=
    if dateString == "now".toList then some now else parseTimestamp dateString
  if elements.length == 1 then .ok date
  else if elements.length > 2 then
    .error ("Cannot parse " ++ String.mk s
      ++ ", max. one operation on dates currently supported")
  else
    let operation := jsTrim (elements.getD 1 [])
    let opSplit := splitFirstWsRun operation
    if opSplit.1 == "add".toList then
      match opSplit.2 with
      | none => .error "Cannot parse amountAndUnit undefined"
      | some amountAndUnit =>
        match matchAmountAndUnit amountAndUnit with
        | none => .error ("Cannot parse amountAndUnit " ++ String.mk amountAndUnit)
        | some (amount, unit) =>
          if unit == "s".toList then .ok (jsAddMillis date (amount * 1000))
          else if unit == "m".toList then .ok (jsAddMillis date (amount * 60 * 1000))
          else if unit == "h".toList then
            .ok (jsAddMillis date (amount * 60 * 60 * 1000))
          else if unit == "d".toList then
            .ok (jsAddMillis date (amount * 24 * 60 * 60 * 1000))
          else if unit == "month".toList then .ok (jsAddCalendarMonths date amount)
          else if unit == "year".toList then .ok (jsAddCalendarYears date amount)
          else .error ("Unknown unit " ++ String.mk unit)
    else .error ("Unknown operation " ++ String.mk operation)

/-- `evaluate` on a Lean `String`. -/
def evaluate (s : String) (now : Int) : Except String JsDate :=
  evaluateChars s.toList now

end DateFunctions

namespace Scheduler

/-- A thrown JavaScript error value, as far as the processor inspects
one: an optional `code` property (present on every `FirebaseError`) and
a message. -/
structure JsError where
  code : Option String
  message : String
deriving DecidableEq, Repr

/-- `isFirebaseError` from `FirestoreProcessor`: the check is solely
`(e as FirebaseError)?.code !== undefined`. -/
def isFirebaseError (e : JsError) : Bool :=
  e.code.isSome

/-- The `Error` thrown by `markJobAsRunning` when the claim transaction
is rejected with a Firebase error (no `code` of its own). -/
def alreadyTakenError : JsError :=
  { code := none, message := "Cannot process job, it is already taken by another worker" }

/-- The `.catch` handler inside `markJobAsRunning`: a rejection that
`isFirebaseError` accepts is replaced by `alreadyTakenError`; any other
rejection is rethrown unchanged. -/
def classifyTxError (e : JsError) : JsError :=
  if isFirebaseError e then alreadyTakenError else e

/-- The Firestore error rejecting a `transaction.delete(ref, { exists:
true })` whose target document does not exist. -/
def failedPreconditionError : JsError :=
  { code := some "failed-precondition", message := "no document to update" }

/-- The Firestore error rejecting a `transaction.create` whose target
document already exists. -/
def alreadyExistsError : JsError :=
  { code := some "already-exists", message := "document already exists" }

/-- A document of the `queued` / `running` collections: its Firestore
id, the `scheduledAt` field the queue is ordered by (epoch
milliseconds), and the rest of the job data, opaque here. -/
structure JobDoc where
  id : String
  scheduledAt : Int
  payload : String
deriving DecidableEq, Repr

/-- A document of the `complete` collection, as written by
`markJobAsComplete`. -/
structure CompletionDoc where
  id : String
  jobData : String
  status : Nat
  executionLagMs : Int
  durationMs : Int
deriving DecidableEq, Repr

/-- The three job collections under the root document path. -/
structure Store where
  queued : List JobDoc
  running : List JobDoc
  complete : List CompletionDoc
deriving DecidableEq, Repr

/-- Membership of a job id in a job collection. -/
def hasId (col : List JobDoc) (id : String) : Bool :=
  col.any (fun d => d.id == id)

/-- Membership of a job id in the `complete` collection. -/
def hasCompletionId (col : List CompletionDoc) (id : String) : Bool :=
  col.any (fun d => d.id == id)

/-- Remove the document with the given id. -/
def removeId (col : List JobDoc) (id : String) : List JobDoc :=
  col.filter (fun d => !(d.id == id))

/-- The job lifecycle invariant of the data model: at any instant a job
id lives in at most one of the three collections (a decidable check,
quantifying over the documents present). -/
def disjointStore (st : Store) : Bool :=
  st.queued.all
    (fun d => !hasId st.running d.id && !hasCompletionId st.complete d.id) &&
  st.running.all (fun d => !hasCompletionId st.complete d.id)

/-- The body of the `markJobAsRunning` transaction, committed
atomically: `transaction.delete(jobDocument.ref, { exists: true })`
(rejects with a Firebase error when the queued document is gone) then
`transaction.create(running/<id>, jobDocument.data())` (rejects with a
Firebase error when the running document already exists).  On success
the new store is returned; on failure nothing is applied. -/
def markJobAsRunningTx (st : Store) (doc : JobDoc) : Except JsError Store :=
  if hasId st.queued doc.id then
    if hasId st.running doc.id then .error alreadyExistsError
    else .ok { st with queued := removeId st.queued doc.id, running := doc :: st.running }
  else .error failedPreconditionError

/-- `markJobAsRunning`: the transaction above with its rejection passed
through the `.catch` handler (`classifyTxError`). -/
def markJobAsRunning (st : Store) (doc : JobDoc) : Except JsError Store :=
  match markJobAsRunningTx st doc with
  | .ok st2 => .ok st2
  | .error e => .error (classifyTxError e)

/-- The store the caller observes after a `markJobAsRunning` attempt:
Firestore transactions are all-or-nothing, so a failed attempt leaves
the collections as they were. -/
def markJobAsRunningResultStore (st : Store) (doc : JobDoc) : Store :=
  match markJobAsRunning st doc with
  | .ok st2 => st2
  | .error _ => st

/-- The ordering of the Firestore query
`collection("queued").orderBy("scheduledAt", "asc")`. -/
def scheduledLe (a b : JobDoc) : Prop :=
  a.scheduledAt ≤ b.scheduledAt

instance : DecidableRel scheduledLe := fun a b =>
  inferInstanceAs (Decidable (a.scheduledAt ≤ b.scheduledAt))

instance : IsTotal JobDoc scheduledLe :=
  ⟨fun a b => Int.le_total a.scheduledAt b.scheduledAt⟩

instance : IsTrans JobDoc scheduledLe :=
  ⟨fun _ _ _ h1 h2 => le_trans h1 h2⟩

/-- The batch delivered by one snapshot of the query
`orderBy("scheduledAt", "asc").limit(5)` over the `queued`
collection: the queued documents in ascending `scheduledAt` order,
cut to the first 5. -/
def queryQueuedBatch (queued : List JobDoc) : List JobDoc :=
  (List.insertionSort scheduledLe queued).take 5

/-- The `onSnapshot` callback of `waitForNextJob`: snapshots with
`size === 0` are ignored (the promise keeps waiting) and the first
non-empty snapshot resolves it.  The argument is the sequence of
snapshots delivered while listening; `none` means none of them was
non-empty. -/
def waitForSnapshot : List (List JobDoc) → Option (List JobDoc)
  | [] => none
  | b :: rest => if b.length == 0 then waitForSnapshot rest else some b

/-- Model of lodash `_.shuffle`: a Fisher-Yates style draw whose random
choices are the explicit `rands` argument (`Math.random` in the
source); each step removes the element at position `r % remaining` and
emits it. -/
def shuffleModel : List Nat → List JobDoc → List JobDoc
  | [], l => l
  | _ :: _, [] => []
  | r :: rs, x :: xs =>
    let l := x :: xs
    let i := r % l.length
    l.getD i x :: shuffleModel rs (l.take i ++ l.drop (i + 1))

/-- The per-candidate effects `takeFirstValidAvailableJob` invokes on
the processor object: `JobDefinition.firestoreCodec.decode` of the
document data, and the resolved outcome of `markJobAsRunning` for the
document (either `alreadyTakenError` or an unexpected error rethrown by
its `.catch` handler). -/
structure ScanEffects where
  decode : JobDoc → Except JsError JobDoc
  claim : JobDoc → Except JsError Unit

/-- Result of scanning a candidate batch: either some candidate was
decoded and successfully claimed, or the batch was exhausted and the
processor goes back to `waitForNextJob()`. -/
inductive ScanOutcome where
  | claimed (j : JobDoc)
  | backToWaiting
deriving DecidableEq, Repr

/-- `takeFirstValidAvailableJob` over the candidates still to try.  For
each candidate the code pipes `decode` then
`TE.chainFirstW(markJobAsRunning(jobDocument))` and attaches
`TE.orElseW(() => takeFirstValidAvailableJob(docs, index + 1))`, so any
`Left` of the decode-then-claim pipe advances to the next candidate;
`docs[index]` being `undefined` returns `this.waitForNextJob()`. -/
def takeFirstValidAvailableJobAux (eff : ScanEffects) : List JobDoc → ScanOutcome
  | [] => .backToWaiting
  | d :: rest =>
    match eff.decode d with
    | .error _ => takeFirstValidAvailableJobAux eff rest
    | .ok j =>
      match eff.claim d with
      | .ok _ => .claimed j
      | .error _ => takeFirstValidAvailableJobAux eff rest

/-- `takeFirstValidAvailableJob(docs, index)` itself. -/
def takeFirstValidAvailableJob (eff : ScanEffects) (docs : List JobDoc) (index : Nat) :
    ScanOutcome :=
  takeFirstValidAvailableJobAux eff (docs.drop index)

/-- The processor state field: `"idle" | "running" | "closed"`. -/
inductive ProcState where
  | idle
  | running
  | closed
deriving DecidableEq, Repr

/-- The mutable control surface of a `FirestoreProcessor`: its `state`
field and whether the optional `unsubscribe` / `reject` members are
currently set. -/
structure FirestoreProcessor where
  state : ProcState
  hasUnsubscribe : Bool
  hasReject : Bool
deriving DecidableEq, Repr

/-- `run()`: sets `this.state = "running"` (unconditionally — there is
no check of the current state) and kicks off `takeNextJob()`. -/
def FirestoreProcessor.run (p : FirestoreProcessor) : FirestoreProcessor :=
  { p with state := .running }

/-- `close()`: sets `this.state = "closed"`, then calls
`this.unsubscribe` and `this.reject` when they are set.  Returns the
new state together with whether each of the two callbacks fired. -/
def FirestoreProcessor.close (p : FirestoreProcessor) :
    FirestoreProcessor × Bool × Bool :=
  ({ p with state := .closed }, p.hasUnsubscribe, p.hasReject)

/-- Result of one `waitForNextJob()` call. -/
inductive WaitOutcome where
  | notRunningError
  | stillWaiting
  | scanned (s : ScanOutcome)
deriving DecidableEq, Repr

/-- `waitForNextJob()`: a closed processor immediately returns
`TE.left(Error("Processor is not running"))`; otherwise the first
non-empty snapshot of the limit-5 ascending queue query is shuffled and
scanned by `takeFirstValidAvailableJob(..., 0)`.  `snaps` is the
sequence of snapshots the subscription delivers and `rands` the random
draws consumed by `_.shuffle`. -/
def waitForNextJob (p : FirestoreProcessor) (eff : ScanEffects)
    (snaps : List (List JobDoc)) (rands : List Nat) : WaitOutcome :=
  if p.state = ProcState.closed then .notRunningError
  else
    match waitForSnapshot snaps with
    | none => .stillWaiting
    | some batch => .scanned (takeFirstValidAvailableJob eff (shuffleModel rands batch) 0)

/-- What `processJob` measures around the callback call: the callback
status, `executionStartDate` (the `clock.now()` reading taken before
the `axios.post`), and `durationMs` (the `clock.now()` reading taken
after it, minus `executionStartDate`). -/
structure ExecStats where
  status : Nat
  executionStartDate : Int
  durationMs : Int
deriving DecidableEq, Repr

/-- The measurement part of `processJob`, with the injected clock given
as the sequence of its readings: reading 0 is taken before the callback
transport call, reading 1 after it. -/
def processJobStats (clock : Nat → Int) (status : Nat) : ExecStats :=
  { status := status
    executionStartDate := clock 0
    durationMs := clock 1 - clock 0 }

/-- The completion record `markJobAsComplete` writes at
`complete/<id>`: the encoded job, the callback status,
`executionLagMs = executionStartDate − scheduledAt`, and `durationMs`. -/
def completionDocFor (job : JobDoc) (stats : ExecStats) : CompletionDoc :=
  { id := job.id
    jobData := job.payload
    status := stats.status
    executionLagMs := stats.executionStartDate - job.scheduledAt
    durationMs := stats.durationMs }

/-- The body of the `markJobAsComplete` transaction, committed
atomically: `transaction.create(complete/<id>, record)` (rejects when
the completion document already exists) then
`transaction.delete(running/<id>, { exists: true })` (rejects when the
running document is gone). -/
def markJobAsCompleteTx (st : Store) (job : JobDoc) (stats : ExecStats) :
    Except JsError Store :=
  if hasCompletionId st.complete job.id then .error alreadyExistsError
  else if hasId st.running job.id then
    .ok { st with
      complete := completionDocFor job stats :: st.complete
      running := removeId st.running job.id }
  else .error failedPreconditionError

/-- The `tryCatchK` rejection handler wrapped around that transaction:
`(e) => { console.log("Error: " + e); return TE.of(undefined); }`.  It
logs, and the value it returns becomes the `Left` of the resulting
`TaskEither` — the write failure therefore still surfaces as a `Left`
(modelled `.error ()`), only with the original error replaced. -/
def markJobAsCompleteCaught (txResult : Except JsError Store) :
    Except Unit Store × List String :=
  match txResult with
  | .ok st2 => (.ok st2, [])
  | .error e => (.error (), ["Error: " ++ e.message])

/-- The observable outcomes of the three effects of one `takeNextJob`
iteration: the resolved `waitForNextJob` task, the callback transport
call of `processJob`, and the `markJobAsComplete` transaction commit. -/
structure IterSpec where
  wait : Except JsError JobDoc
  callback : Except JsError ExecStats
  completeTx : Except JsError Unit

/-- The `Left` channel of the `takeNextJob` pipe. -/
inductive LoopLeft where
  | waitError (e : JsError)
  | callbackError (e : JsError)
  | completeWriteLeft
deriving DecidableEq, Repr

/-- One iteration of the loop body
`pipe(waitForNextJob(), TE.chainFirstW(processJob))`: each stage
short-circuits on `Left`; a completion-write failure logs and becomes
`LoopLeft.completeWriteLeft` (see `markJobAsCompleteCaught`).  Returns
the iteration result and the log lines it printed. -/
def iterationStep (it : IterSpec) : Except LoopLeft JobDoc × List String :=
  match it.wait with
  | .error e => (.error (.waitError e), [])
  | .ok jd =>
    match it.callback with
    | .error e => (.error (.callbackError e), [])
    | .ok _ =>
      match it.completeTx with
      | .ok _ => (.ok jd, [])
      | .error e => (.error .completeWriteLeft, ["Error: " ++ e.message])

/-- `takeNextJob()`: runs iterations in sequence, recursing through
`TE.chainW(() => this.takeNextJob())` only on `Right`; the first `Left`
iteration ends the recursion with that `Left`.  The argument lists the
outcomes of the successive iterations the environment would offer; the
result carries the final task value, the accumulated logs, and how many
iterations actually ran. -/
def takeNextJob : List IterSpec → Except LoopLeft Unit × List String × Nat
  | [] => (.ok (), [], 0)
  | it :: rest =>
    match iterationStep it with
    | (.ok _, logs) =>
      match takeNextJob rest with
      | (r, logs2, n) => (r, logs ++ logs2, n + 1)
    | (.error e, logs) => (.error e, logs, 1)

end Scheduler

namespace Scheduler

/-- Helper: under the lifecycle invariant, a queued job id is not in the
`complete` collection. -/
theorem disjoint_queued_not_complete (st : Store) (id : String)
    (h : disjointStore st = true) (hq : hasId st.queued id = true) :
    hasCompletionId st.complete id = false := by
  simp only [disjointStore, Bool.and_eq_true, List.all_eq_true] at h
  simp only [hasId, List.any_eq_true, beq_iff_eq] at hq
  obtain ⟨d, hd, hdid⟩ := hq
  have h2 := (h.1 d hd).2
  rw [Bool.not_eq_true'] at h2
  rw [← hdid]
  exact h2

/-- Helper: a permutation-producing run of the shuffle model. -/
theorem shuffleModel_perm (rs : List Nat) :
    ∀ l : List JobDoc, (shuffleModel rs l).Perm l := by
  induction rs with
  | nil => intro l; simp [shuffleModel]
  | cons r rs ih =>
    intro l
    match l with
    | [] => simp [shuffleModel]
    | x :: xs =>
      rw [shuffleModel]
      have hlen : r % (x :: xs).length < (x :: xs).length :=
        Nat.mod_lt _ (by simp)
      have hget : (x :: xs).getD (r % (x :: xs).length) x =
          (x :: xs)[r % (x :: xs).length] := List.getD_eq_getElem _ _ hlen
      have hsplit : (x :: xs) =
          (x :: xs).take (r % (x :: xs).length) ++
            (x :: xs)[r % (x :: xs).length] ::
              (x :: xs).drop (r % (x :: xs).length + 1) := by
        conv_lhs => rw [← List.take_append_drop (r % (x :: xs).length) (x :: xs)]
        rw [List.drop_eq_getElem_cons hlen]
      refine List.Perm.trans (List.Perm.cons _ (ih _)) ?_
      rw [hget]
      refine List.Perm.trans List.perm_middle.symm ?_
      rw [← hsplit]

end Scheduler

section ClaimTheorems

open DateFunctions Scheduler

/-- C1: `markJobAsRunning` is one atomic transaction that asserts the
job is in the queue (the existence-precondition delete), removes it from
the queue, and creates the running record; under the lifecycle
invariant it fails — leaving `queued`/`running` unchanged — for every
job that is absent from the queue, already running, or already
complete, and succeeds exactly by moving the document from `queued` to
`running`. -/
theorem c1_markJobAsRunning_atomic_claim (st : Store) (doc : JobDoc)
    (hwf : disjointStore st = true) :
    ((hasId st.queued doc.id = false ∨ hasId st.running doc.id = true ∨
        hasCompletionId st.complete doc.id = true) →
      markJobAsRunning st doc = .error alreadyTakenError ∧
        markJobAsRunningResultStore st doc = st) ∧
    (hasId st.queued doc.id = true → hasId st.running doc.id = false →
      markJobAsRunning st doc =
        .ok { st with queued := removeId st.queued doc.id,
                      running := doc :: st.running }) := by
  constructor
  · intro hfail
    have herr : ∃ e, markJobAsRunningTx st doc = .error e ∧ isFirebaseError e = true := by
      rcases hfail with hq | hr | hc
      · exact ⟨failedPreconditionError, by simp [markJobAsRunningTx, hq], rfl⟩
      · by_cases hq : hasId st.queued doc.id = true
        · exact ⟨alreadyExistsError, by simp [markJobAsRunningTx, hq, hr], rfl⟩
        · rw [Bool.not_eq_true] at hq
          exact ⟨failedPreconditionError, by simp [markJobAsRunningTx, hq], rfl⟩
      · by_cases hq : hasId st.queued doc.id = true
        · have := disjoint_queued_not_complete st doc.id hwf hq
          rw [this] at hc; cases hc
        · rw [Bool.not_eq_true] at hq
          exact ⟨failedPreconditionError, by simp [markJobAsRunningTx, hq], rfl⟩
    obtain ⟨e, he, hfb⟩ := herr
    constructor
    · simp [markJobAsRunning, he, classifyTxError, hfb]
    · simp [markJobAsRunningResultStore, markJobAsRunning, he, classifyTxError, hfb]
  · intro hq hr
    simp [markJobAsRunning, markJobAsRunningTx, hq, hr]

/-- A concrete store for the C1 witness: job `a` queued, job `b`
already complete. -/
def c1Store : Store :=
  { queued := [⟨"a", 0, "pa"⟩], running := [], complete := [⟨"b", "pb", 200, 0, 1⟩] }

/-- The job document whose claim is attempted in the C1 witness. -/
def c1Doc : JobDoc :=
  ⟨"b", 5, "pb"⟩

/-- C1 witness: a store whose queue holds job `a` while job `b` is
complete; claiming the absent job `b` fails with the already-taken
error and leaves the store unchanged. -/
theorem c1_markJobAsRunning_atomic_claim_witness :
    disjointStore c1Store = true ∧
    (markJobAsRunning c1Store c1Doc = .error alreadyTakenError ∧
      markJobAsRunningResultStore c1Store c1Doc = c1Store) :=
  ⟨by decide,
    (c1_markJobAsRunning_atomic_claim c1Store c1Doc (by decide)).1 (Or.inl (by decide))⟩

/-- C10: inside the claim transaction, any rejection whose value carries
a `code` property is replaced by the "already taken by another worker"
error, and only rejections without a `code` property are rethrown
unchanged — the discrimination is exactly the presence of `code`. -/
theorem c10_claim_error_discrimination :
    (∀ c m : String, classifyTxError ⟨some c, m⟩ = alreadyTakenError) ∧
    (∀ m : String, classifyTxError ⟨none, m⟩ = ⟨none, m⟩) ∧
    (∀ e : JsError, isFirebaseError e = e.code.isSome) := by
  refine ⟨fun c m => ?_, fun m => ?_, fun e => rfl⟩
  · simp [classifyTxError, isFirebaseError]
  · simp [classifyTxError, isFirebaseError]

/-- Scan effects for the C2 counterexample: decoding always succeeds,
the claim on job `j0` is rejected with an unexpected error (no `code`
property, so `markJobAsRunning` rethrows it unchanged — not the
already-taken error), and the claim on job `j1` succeeds. -/
def c2Eff : ScanEffects :=
  { decode := fun d => .ok d
    claim := fun d =>
      if d.id == "j0" then .error ⟨none, "socket hang up"⟩ else .ok () }

/-- C2 counterexample: with candidates `[j0, j1]` and the claim on `j0`
failing with an unexpected (non-Firebase) transaction error, the scan
does not propagate that error to the caller — it advances and claims
`j1` (`ScanOutcome` has no error case at all: `TE.orElseW` absorbs
every failure). -/
theorem c2_unexpected_error_not_propagated_counterexample :
    c2Eff.claim ⟨"j0", 0, "a"⟩ = .error ⟨none, "socket hang up"⟩ ∧
    classifyTxError ⟨none, "socket hang up"⟩ ≠ alreadyTakenError ∧
    takeFirstValidAvailableJob c2Eff [⟨"j0", 0, "a"⟩, ⟨"j1", 1, "b"⟩] 0 =
      .claimed ⟨"j1", 1, "b"⟩ := by
  refine ⟨by decide, by decide, by decide⟩

/-- C2 amended: on the expected already-taken failure the scan advances
to the next candidate, but equally on every other failure of the
decode-or-claim step — no claim error propagates to the caller; an
exhausted candidate list returns to waiting. -/
theorem c2_any_claim_failure_advances (eff : ScanEffects) (d : JobDoc)
    (rest : List JobDoc) :
    (((∃ e, eff.decode d = .error e) ∨ (∃ e, eff.claim d = .error e)) →
      takeFirstValidAvailableJobAux eff (d :: rest) =
        takeFirstValidAvailableJobAux eff rest) ∧
    takeFirstValidAvailableJobAux eff [] = ScanOutcome.backToWaiting := by
  constructor
  · intro hfail
    rcases hfail with ⟨e, he⟩ | ⟨e, he⟩
    · rw [takeFirstValidAvailableJobAux, he]
    · rw [takeFirstValidAvailableJobAux]
      cases hdec : eff.decode d with
      | error _ => rfl
      | ok _ => rw [he]
  · rfl

/-- C2 amended witness: the unexpected-error candidate of the
counterexample is skipped over, concretely. -/
theorem c2_any_claim_failure_advances_witness :
    (∃ e, c2Eff.claim ⟨"j0", 0, "a"⟩ = .error e) ∧
    takeFirstValidAvailableJobAux c2Eff [⟨"j0", 0, "a"⟩, ⟨"j1", 1, "b"⟩] =
      takeFirstValidAvailableJobAux c2Eff [⟨"j1", 1, "b"⟩] :=
  ⟨⟨⟨none, "socket hang up"⟩, by decide⟩,
    (c2_any_claim_failure_advances c2Eff ⟨"j0", 0, "a"⟩ [⟨"j1", 1, "b"⟩]).1
      (Or.inr ⟨⟨none, "socket hang up"⟩, by decide⟩)⟩

/-- C3 counterexample: `run()` sets `state = "running"` unconditionally,
so calling `run()` on a closed processor returns it to `running` —
`closed` is not terminal. -/
theorem c3_closed_not_terminal_counterexample :
    (FirestoreProcessor.run ⟨ProcState.closed, false, false⟩).state =
      ProcState.running := by
  decide

/-- C3 amended: `close()` does flip the state to `closed`, fires the
open watch unsubscribe exactly when one is set, and fires the pending
wait rejection exactly when one is set, and a closed processor's
`waitForNextJob()` fails immediately; but `closed` is not terminal:
`run()` moves any state — including `closed` — back to `running`. -/
theorem c3_close_behaviour_run_restarts (p : FirestoreProcessor)
    (hu hr : Bool) (eff : ScanEffects) (snaps : List (List JobDoc))
    (rands : List Nat) :
    (FirestoreProcessor.close p).1.state = ProcState.closed ∧
    (FirestoreProcessor.close p).2.1 = p.hasUnsubscribe ∧
    (FirestoreProcessor.close p).2.2 = p.hasReject ∧
    waitForNextJob ⟨ProcState.closed, hu, hr⟩ eff snaps rands =
      WaitOutcome.notRunningError ∧
    (FirestoreProcessor.run p).state = ProcState.running := by
  refine ⟨rfl, rfl, rfl, ?_, rfl⟩
  rw [waitForNextJob]
  simp

/-- The iteration of the C4 failing input: `waitForNextJob` hands over a
job, the callback succeeds with status 200, and the completion-record
transaction is rejected because the completion document already
exists. -/
def c4BadIter : IterSpec :=
  { wait := .ok ⟨"j", 0, "p"⟩
    callback := .ok ⟨200, 5, 42⟩
    completeTx := .error alreadyExistsError }

/-- A subsequent iteration that would succeed if the loop kept going. -/
def c4GoodIter : IterSpec :=
  { wait := .ok ⟨"k", 0, "q"⟩
    callback := .ok ⟨200, 50, 1⟩
    completeTx := .ok () }

/-- C4: evaluation at the failing input.  When the callback succeeded
but the completion write fails, the failure is logged — yet the
`tryCatchK` handler returns its replacement as the task's `Left`, so
`TE.chainW(() => this.takeNextJob())` is skipped: the loop terminates
after this iteration (only 1 of the 2 available iterations runs)
instead of proceeding to the next one as the claim states. -/
theorem c4_complete_write_failure_stops_loop :
    takeNextJob [c4BadIter, c4GoodIter] =
      (.error LoopLeft.completeWriteLeft, ["Error: document already exists"], 1) ∧
    takeNextJob [c4GoodIter, c4GoodIter] = (.ok (), [], 2) := by
  refine ⟨by decide, by decide⟩

/-- C5: evaluation at the failing inputs.  For every fixed clock instant
`T`, `"now | add 3 months"` does not resolve by calendar arithmetic: it
throws `Unknown unit months`, and likewise for the unit word `years` —
the switch statement's `case "month" || "months":` and
`case "year" || "years":` evaluate to the singular labels only, so the
plural unit words accepted by the regex fall through to the `default`
branch.  (The singular forms do resolve by calendar arithmetic:
`"now | add 1 month"` at epoch 0 gives 1970-02-01.) -/
theorem c5_plural_calendar_units_throw (T : Int) :
    evaluate "now | add 3 months" T = .error "Unknown unit months" ∧
    evaluate "now | add 2 years" T = .error "Unknown unit years" ∧
    evaluate "now | add 1 month" 0 = .ok (some 2678400000) := by
  exact ⟨rfl, rfl, by decide⟩

/-- C6: for every fixed clock instant `T`, `"now | add -1h"` resolves to
exactly `T − 3600000` milliseconds, computed from the injected clock
value alone. -/
theorem c6_now_minus_one_hour (T : Int) :
    evaluate "now | add -1h" T = .ok (some (T - 3600000)) := by
  have h : evaluate "now | add -1h" T = .ok (some (T + -1 * 1 * (60 * 60 * 1000))) := rfl
  rw [h]
  norm_num
  omega

/-- C7 counterexample: a malformed timestamp before the first `|` does
not make parsing fail — date-fns `parse` yields the JS `Invalid Date`
(modelled `none`), which `evaluate` returns as a success value, a
silently coerced result rather than a descriptive error. -/
theorem c7_malformed_timestamp_not_rejected_counterexample :
    DateFunctions.evaluate "garbage" 0 = .ok none := by
  decide

/-- C7 amended: expressions with more than one `|` operation, an
unparsable amount-and-unit, a unit outside the switch, or an unknown
operation all fail with a descriptive error, for every clock instant;
but a malformed timestamp before the first `|` is silently coerced to
the JS `Invalid Date` instead of failing. -/
theorem c7_parse_failures (T : Int) :
    evaluate "now | add 1h | add 2h" T =
      .error "Cannot parse now | add 1h | add 2h, max. one operation on dates currently supported" ∧
    evaluate "now | add 3 weeks" T = .error "Cannot parse amountAndUnit 3 weeks" ∧
    evaluate "now | add 3 seconds" T = .error "Unknown unit seconds" ∧
    evaluate "now | sub 1h" T = .error "Unknown operation sub 1h" ∧
    evaluate "garbage" T = .ok none := by
  exact ⟨rfl, rfl, rfl, rfl, rfl⟩

/-- C8: the wait step queries a batch of at most 5 queued jobs in
ascending `scheduledAt` order; empty snapshots keep the wait going; the
batch is shuffled before any claim is attempted, and the shuffled
attempt order is a permutation of the batch; an exhausted candidate
list sends the processor back to waiting. -/
theorem c8_wait_shuffle_scan_cycle :
    (∀ queued : List JobDoc, (queryQueuedBatch queued).length ≤ 5) ∧
    (∀ queued : List JobDoc, (queryQueuedBatch queued).Sorted scheduledLe) ∧
    (∀ snaps : List (List JobDoc), waitForSnapshot ([] :: snaps) = waitForSnapshot snaps) ∧
    (∀ (rands : List Nat) (batch : List JobDoc), (shuffleModel rands batch).Perm batch) ∧
    (∀ eff : ScanEffects, takeFirstValidAvailableJobAux eff [] = ScanOutcome.backToWaiting) := by
  refine ⟨fun queued => ?_, fun queued => ?_, fun snaps => ?_,
    fun rands batch => shuffleModel_perm rands batch, fun eff => rfl⟩
  · rw [queryQueuedBatch, List.length_take]
    exact min_le_left _ _
  · exact (List.sorted_insertionSort scheduledLe queued).sublist (List.take_sublist _ _)
  · rw [waitForSnapshot]
    simp

/-- The clock readings of the C9 witness: 100 before the callback call,
142 after it. -/
def c9Clock : Nat → Int :=
  fun n => if n == 0 then 100 else 142

/-- The job of the C9 witness, scheduled at instant 90. -/
def c9Job : JobDoc :=
  ⟨"j", 90, "p"⟩

/-- The store of the C9 witness: the job is running, not yet complete. -/
def c9Store : Store :=
  { queued := [], running := [⟨"j", 90, "p"⟩], complete := [] }

/-- C9: for a job whose callback succeeded, the completion record
written by `markJobAsComplete` carries the callback status, an
`executionLagMs` equal to the execution-start clock reading minus the
job's scheduled instant, and a `durationMs` equal to the clock reading
taken after the call minus the one taken before it; the transaction
moves the job from `running` to `complete`. -/
theorem c9_completion_record_fields (clock : Nat → Int) (job : JobDoc)
    (status : Nat) (st : Store)
    (h1 : hasCompletionId st.complete job.id = false)
    (h2 : hasId st.running job.id = true) :
    markJobAsCompleteTx st job (processJobStats clock status) =
      .ok { st with
        complete := completionDocFor job (processJobStats clock status) :: st.complete
        running := removeId st.running job.id } ∧
    completionDocFor job (processJobStats clock status) =
      { id := job.id
        jobData := job.payload
        status := status
        executionLagMs := clock 0 - job.scheduledAt
        durationMs := clock 1 - clock 0 } := by
  constructor
  · simp [markJobAsCompleteTx, h1, h2]
  · rfl

/-- C9 witness: concrete run with clock readings 100 and 142 and a job
scheduled at 90 — lag 10, duration 42, status 200 recorded. -/
theorem c9_completion_record_fields_witness :
    hasCompletionId c9Store.complete c9Job.id = false ∧
    hasId c9Store.running c9Job.id = true ∧
    markJobAsCompleteTx c9Store c9Job (processJobStats c9Clock 200) =
      .ok { c9Store with
        complete := completionDocFor c9Job (processJobStats c9Clock 200) :: c9Store.complete
        running := removeId c9Store.running c9Job.id } ∧
    completionDocFor c9Job (processJobStats c9Clock 200) =
      ⟨"j", "p", 200, 10, 42⟩ :=
  ⟨by decide, by decide,
    (c9_completion_record_fields c9Clock c9Job 200 c9Store (by decide) (by decide)).1,
    by decide⟩

end ClaimTheorems

